import Mathlib

set_option maxRecDepth 8000
set_option linter.unusedVariables false

/-!
# Verification of the Qbit City authoritative game server

A shallow embedding, in Lean 4, of the server-side simulation core of the
Qbit City multiplayer game (`QbitCityGameStateManager` and
`QbitCityGameLoop`), together with theorems settling the specification
claims about map generation, input buffering and selection, collision
rules, coin economy, spawning schedule and the tick scheduler.

Modelling conventions:
* JavaScript numbers are modelled by `ℚ` (exact arithmetic; floating-point
  rounding is idealized away).
* `Math.hypot(dx, dy) < r` comparisons are embedded as the equivalent
  (over the reals, for `r ≥ 0`) comparison `dx² + dy² < r²`, which keeps
  the development inside `ℚ`.
* In-place mutation of arrays/objects becomes explicit state passing.
* Ambient nondeterminism (`Math.random()`, `Date.now()`) is modelled by
  explicit oracle parameters: an infinite stream `o : Nat → ℚ` of random
  draws consumed at an explicit cursor, and a wall-clock parameter.
-/

/-! ## Scalar primitives -/

/-- JavaScript's `%` truncates the quotient toward zero.  `jsTrunc` is that
truncation on `ℚ`. -/
def jsTrunc (q : ℚ) : Int := if 0 ≤ q then ⌊q⌋ else ⌈q⌉

/-- JavaScript's remainder operator `a % b` on numbers. -/
def jsMod (a b : ℚ) : ℚ := a - b * (jsTrunc (a / b) : ℚ)

/-- One step of the linear-congruential generator inside
`QbitCityGameStateManager.seededRandom`:
`value = (value * 9301 + 49297) % 233280`. -/
def lcgNext (value : ℚ) : ℚ := jsMod (value * 9301 + 49297) 233280

/-- One call of the closure returned by `seededRandom`: advance the state
and return `value / 233280` together with the new state. -/
def rngDraw (value : ℚ) : ℚ × ℚ :=
  let v := lcgNext value
  (v / 233280, v)

/-! ## Tile grid -/

/-- Read `tiles[y][x]` (always guarded in the source, so the default is
never observable on in-range accesses). -/
def getTile (tiles : List (List Nat)) (y x : Nat) : Nat :=
  (tiles.getD y []).getD x 0

/-- Write `tiles[y][x] = v` (in-range in every use site of the source). -/
def setTile (tiles : List (List Nat)) (y x : Nat) (v : Nat) : List (List Nat) :=
  tiles.set y ((tiles.getD y []).set x v)

/-! ## Map generation (`QbitCityGameStateManager.generateMap`) -/

/-- The loop offsets `-1, 0, 1` used for 3×3 neighbourhood scans. -/
def offsets3 : List Int := [-1, 0, 1]

/-- Body of the water-blot inner loop in `generateMap`: convert a single
in-range, non-road cell to water (tile 3). -/
def blotCell (t : List (List Nat)) (ly lx : Int) : List (List Nat) :=
  if 0 ≤ ly ∧ ly < 50 ∧ 0 ≤ lx ∧ lx < 50 then
    if getTile t ly.toNat lx.toNat ≠ 0 then setTile t ly.toNat lx.toNat 3 else t
  else t

/-- The 3×3 water blot centred on `(y, x)` in `generateMap`. -/
def waterBlot (t : List (List Nat)) (y x : Nat) : List (List Nat) :=
  offsets3.foldl
    (fun acc dy => offsets3.foldl
      (fun acc2 dx => blotCell acc2 ((y : Int) + dy) ((x : Int) + dx)) acc) t

/-- Per-cell body of the road/water/grass pass of `generateMap`, threading
the seeded-rng state.  Roads are stamped on rows/columns whose index is a
multiple of 4; otherwise one rng draw selects water (< 0.05), grass
(< 0.15) or leaves sidewalk. -/
def genCell (st : List (List Nat) × ℚ) (y x : Nat) : List (List Nat) × ℚ :=
  if y % 4 = 0 ∨ x % 4 = 0 then (setTile st.1 y x 0, st.2)
  else if (rngDraw st.2).1 < 1/20 then (waterBlot st.1 y x, (rngDraw st.2).2)
  else if (rngDraw st.2).1 < 3/20 then (setTile st.1 y x 2, (rngDraw st.2).2)
  else (st.1, (rngDraw st.2).2)

/-- The road/water/grass double loop of `generateMap` (y outer, x inner). -/
def genPass (st : List (List Nat) × ℚ) : List (List Nat) × ℚ :=
  (List.range 50).foldl
    (fun acc y => (List.range 50).foldl (fun acc2 x => genCell acc2 y x) acc) st

/-- Per-cell body of the perimeter pass of `generateMap`: cells on the
outer border are forced to lava (tile 4). -/
def perimCell (t : List (List Nat)) (y x : Nat) : List (List Nat) :=
  if x = 0 ∨ x = 49 ∨ y = 0 ∨ y = 49 then setTile t y x 4 else t

/-- The perimeter double loop of `generateMap`. -/
def perimPass (t : List (List Nat)) : List (List Nat) :=
  (List.range 50).foldl
    (fun acc y => (List.range 50).foldl (fun acc2 x => perimCell acc2 y x) acc) t

/-- A building record produced by `generateMap`. -/
structure Building where
  gridX : Nat
  gridY : Nat
  x : ℚ
  y : ℚ
  w : ℚ
  h : ℚ
  height : ℚ
  color : String
  wallColor : String
  type : Nat
  deriving DecidableEq

/-- A decorative tree record produced by `generateMap` (named `MapTree`
here because Lean already has a `Tree`). -/
structure MapTree where
  x : ℚ
  y : ℚ
  r : ℚ
  deriving DecidableEq

/-- Per-cell body of the buildings/trees pass of `generateMap`.  On a
sidewalk tile it draws `rand` and a residential height, then possibly a
shop/cafe height (consuming one further draw); on a grass tile it draws
once and, with probability 0.7, three more times for the tree jitter. -/
def decorCell (tiles : List (List Nat)) (st : List Building × List MapTree × ℚ)
    (y x : Nat) : List Building × List MapTree × ℚ :=
  let bs := st.1
  let ts := st.2.1
  let r := st.2.2
  let tile := getTile tiles y x
  let px : ℚ := (x : ℚ) * 64
  let py : ℚ := (y : ℚ) * 64
  if tile = 1 then
    let d1 := rngDraw r
    let d2 := rngDraw d1.2
    if d1.1 > 9/10 then
      let d3 := rngDraw d2.2
      (bs ++ [⟨x, y, px, py, 64, 64, 30 + d3.1 * 20, "#331133", "#220022", 1⟩], ts, d3.2)
    else if d1.1 > 8/10 then
      let d3 := rngDraw d2.2
      (bs ++ [⟨x, y, px, py, 64, 64, 25 + d3.1 * 15, "#2e3b2e", "#1a221a", 2⟩], ts, d3.2)
    else
      (bs ++ [⟨x, y, px, py, 64, 64, 40 + d2.1 * 60, "#252525", "#151515", 0⟩], ts, d2.2)
  else if tile = 2 then
    let d1 := rngDraw r
    if d1.1 > 3/10 then
      let d2 := rngDraw d1.2
      let d3 := rngDraw d2.2
      let d4 := rngDraw d3.2
      (bs, ts ++ [⟨px + 32 + (d2.1 * 20 - 10), py + 32 + (d3.1 * 20 - 10), 10 + d4.1 * 10⟩], d4.2)
    else (bs, ts, d1.2)
  else (bs, ts, r)

/-- The buildings/trees double loop of `generateMap`. -/
def decorPass (tiles : List (List Nat)) (r : ℚ) : List Building × List MapTree × ℚ :=
  (List.range 50).foldl
    (fun acc y => (List.range 50).foldl (fun acc2 x => decorCell tiles acc2 y x) acc)
    ([], [], r)

/-- The map record returned by `generateMap`. -/
structure GameMap where
  width : ℚ
  height : ℚ
  tiles : List (List Nat)
  buildings : List Building
  trees : List MapTree

/-- The grid and rng state after the road/water/grass pass of
`generateMap`, starting from the all-sidewalk grid. -/
def genTilesRng (seed : ℚ) : List (List Nat) × ℚ :=
  genPass (List.replicate 50 (List.replicate 50 1), seed)

/-- The final tile grid of `generateMap`: road/water/grass pass, then the
perimeter-lava pass. -/
def mapTiles (seed : ℚ) : List (List Nat) :=
  perimPass (genTilesRng seed).1

/-- `QbitCityGameStateManager.generateMap(seed)`.  The extra parameter
`ambientRandom` models the ambient `Math.random` stream that is available
to every function in the source; `generateMap` never calls it (all its
randomness comes from `seededRandom(seed)`), which is why the parameter is
unused in the body. -/
def generateMap (seed : ℚ) (ambientRandom : Nat → ℚ) : GameMap :=
  { width := 50 * 64, height := 50 * 64,
    tiles := mapTiles seed,
    buildings := (decorPass (mapTiles seed) (genTilesRng seed).2).1,
    trees := (decorPass (mapTiles seed) (genTilesRng seed).2).2.1 }

/-! ## Well-formedness of the grid and the perimeter property -/

/-- The 50×50 well-formedness of a tile grid. -/
def Grid50 (t : List (List Nat)) : Prop :=
  t.length = 50 ∧ ∀ row ∈ t, row.length = 50

/-! ## Input buffering (`QbitCityGameStateManager.bufferPlayerInput`) -/

/-- The pressed-key snapshot carried by an input (`input.keys`). -/
structure Keys where
  arrowUp : Bool
  arrowDown : Bool
  arrowLeft : Bool
  arrowRight : Bool
  keyW : Bool
  keyA : Bool
  keyS : Bool
  keyD : Bool
  deriving DecidableEq

/-- One buffered input: `{ ...input, timestamp, processed }`. -/
structure InputEntry where
  keys : Keys
  timestamp : ℚ
  processed : Bool
  deriving DecidableEq

instance : Inhabited Keys :=
  ⟨⟨false, false, false, false, false, false, false, false⟩⟩

instance : Inhabited InputEntry := ⟨⟨default, 0, true⟩⟩

/-- The Bool comparator `(a, b) => a.timestamp - b.timestamp` of the
`Array.prototype.sort` call in `bufferPlayerInput` (ascending order;
JS `sort` is stable, as is `List.mergeSort`). -/
def tsLe (a c : InputEntry) : Bool := decide (a.timestamp ≤ c.timestamp)

/-- `QbitCityGameStateManager.bufferPlayerInput` acting on one player's
buffer: append the new entry (unprocessed), re-sort stably by timestamp
ascending, and `shift()` one entry from the front if the length
exceeds 60. -/
def bufferPlayerInput (buffer : List InputEntry) (keys : Keys) (timestamp : ℚ) :
    List InputEntry :=
  if 60 < ((buffer ++ [(⟨keys, timestamp, false⟩ : InputEntry)]).mergeSort tsLe).length
  then ((buffer ++ [(⟨keys, timestamp, false⟩ : InputEntry)]).mergeSort tsLe).tail
  else (buffer ++ [(⟨keys, timestamp, false⟩ : InputEntry)]).mergeSort tsLe

/-! ## Tile collision (`QbitCityGameLoop.checkCollision`) -/

/-- The solidity rule of `checkCollision`: `solid = tile === 1 || tile === 3;
if (tile === 4 && !isPlayer) solid = true;`. -/
def tileSolid (tile : Nat) (isPlayer : Bool) : Bool :=
  tile == 1 || tile == 3 || (tile == 4 && !isPlayer)

/-- One iteration of the 3×3 scan in `checkCollision`, with the solidity
test abstracted as `P`: the cell `(gy, gx)` is in range, satisfies `P`,
and its 64×64 box overlaps the actor's bounding box. -/
def tileHit (x y w h : ℚ) (m : GameMap) (P : Nat → Bool) (gy gx : Int) : Bool :=
  decide (0 ≤ gy) && decide (gy < 50) && decide (0 ≤ gx) && decide (gx < 50) &&
  P (getTile m.tiles gy.toNat gx.toNat) &&
  decide (x - w / 2 < (gx : ℚ) * 64 + 64) && decide (x + w / 2 > (gx : ℚ) * 64) &&
  decide (y - h / 2 < (gy : ℚ) * 64 + 64) && decide (y + h / 2 > (gy : ℚ) * 64)

/-- The 3×3 neighbourhood scan of `checkCollision` around the target
point's tile, with the solidity test abstracted as `P`.  (`List.any`
matches the source's early `return true`: the loop has no other side
effect.) -/
def hitTile (x y w h : ℚ) (m : GameMap) (P : Nat → Bool) : Bool :=
  offsets3.any fun dy => offsets3.any fun dx =>
    tileHit x y w h m P (⌊y / 64⌋ + dy) (⌊x / 64⌋ + dx)

/-- `QbitCityGameLoop.checkCollision(x, y, width, height, map, isPlayer)`:
the 3×3 scan instantiated with the source's solidity rule. -/
def checkCollision (x y w h : ℚ) (m : GameMap) (isPlayer : Bool) : Bool :=
  hitTile x y w h m (fun tile => tileSolid tile isPlayer)

/-! ## Players and input application (`QbitCityGameLoop.applyInputToPlayer`) -/

/-- A player record, as built by
`QbitCityGameStateManager.initializePlayers`. -/
structure Player where
  id : String
  name : String
  x : ℚ
  y : ℚ
  width : ℚ
  height : ℚ
  speed : ℚ
  velX : ℚ
  velY : ℚ
  dirX : ℚ
  dirY : ℚ
  trail : List (ℚ × ℚ)
  portalCooldown : ℚ
  coinsCollected : Nat
  immunityInventory : Nat
  sinkInventory : Nat
  energy : ℚ
  immunityActive : Bool
  immunityEndTime : ℚ
  deriving DecidableEq

/-- `QbitCityGameLoop.applyInputToPlayer`.  The only irrational number in
the source arises from `Math.sqrt(dx*dx + dy*dy)` when both movement axes
are pressed (`dx, dy ∈ {-1, 0, 1}`, so the length is `1` on a single axis
and `√2` on a diagonal).  The embedding takes the reciprocal `invSqrt2` of
the diagonal length as a parameter; every theorem about this function is
proved for all values of that parameter. -/
def applyInputToPlayer (invSqrt2 : ℚ) (p : Player) (input : InputEntry)
    (dt : ℚ) (m : GameMap) (gameTime : ℚ) : Player :=
  let k := input.keys
  let dy0 : ℚ := if k.arrowDown = true ∨ k.keyS = true then 1
    else if k.arrowUp = true ∨ k.keyW = true then -1 else 0
  let dx0 : ℚ := if k.arrowRight = true ∨ k.keyD = true then 1
    else if k.arrowLeft = true ∨ k.keyA = true then -1 else 0
  let dx := if dx0 ≠ 0 ∧ dy0 ≠ 0 then dx0 * invSqrt2 else dx0
  let dy := if dx0 ≠ 0 ∧ dy0 ≠ 0 then dy0 * invSqrt2 else dy0
  let dirX := if dx0 ≠ 0 ∨ dy0 ≠ 0 then dx else p.dirX
  let dirY := if dx0 ≠ 0 ∨ dy0 ≠ 0 then dy else p.dirY
  let velX := dx * p.speed
  let velY := dy * p.speed
  let newX := p.x + velX * dt
  let newY := p.y + velY * dt
  let pos :=
    if checkCollision newX p.y p.width p.height m true = true then
      if checkCollision p.x newY p.width p.height m true = false then (p.x, newY)
      else (p.x, p.y)
    else if checkCollision p.x newY p.width p.height m true = true then (newX, p.y)
    else (newX, newY)
  let energy := if dx0 ≠ 0 ∨ dy0 ≠ 0 then min 1 (p.energy + dt * (3/10)) else p.energy
  let trail :=
    if dx0 ≠ 0 ∨ dy0 ≠ 0 then
      let t0 := p.trail ++ [(pos.1, pos.2)]
      if 20 < t0.length then t0.tail else t0
    else p.trail
  let cooldown := if 0 < p.portalCooldown then p.portalCooldown - dt else p.portalCooldown
  let active := if p.immunityActive = true ∧ gameTime ≥ p.immunityEndTime then false
    else p.immunityActive
  { p with
    x := pos.1,
    y := pos.2,
    velX := velX,
    velY := velY,
    dirX := dirX,
    dirY := dirY,
    energy := energy,
    trail := trail,
    portalCooldown := cooldown,
    immunityActive := active }

/-! ## Per-player input selection (`QbitCityGameLoop.processPlayerInputs`) -/

/-- The downward scan of `processPlayerInputs` that finds the index of the
most recent unprocessed input with timestamp ≤ the current time
(`for (let i = buffer.length - 1; i >= 0; i--)`, keeping the entry with
the strictly greatest timestamp seen so far). -/
def selectLatest (buffer : List InputEntry) (now : ℚ) : Option Nat :=
  (List.range buffer.length).reverse.foldl
    (fun acc i =>
      if (buffer.getD i default).processed = false ∧ (buffer.getD i default).timestamp ≤ now then
        match acc with
        | none => some i
        | some j =>
          if (buffer.getD j default).timestamp < (buffer.getD i default).timestamp then some i
          else acc
      else acc) none

/-- Set an entry's `processed` flag. -/
def markProcessed (e : InputEntry) : InputEntry := { e with processed := true }

/-- The marking phase of `processPlayerInputs` once the latest input's
index is known: `latestInput.processed = true`, then every entry before it
with timestamp ≤ the current time is marked processed (superseded). -/
def markSuperseded (buffer : List InputEntry) (idx : Nat) (now : ℚ) : List InputEntry :=
  (buffer.set idx (markProcessed (buffer.getD idx default))).mapIdx
    (fun i e => if i < idx ∧ e.timestamp ≤ now then markProcessed e else e)

/-- The staleness filter of `processPlayerInputs`:
`!input.processed || (currentTime - input.timestamp < 1000)`. -/
def filterOldInputs (buffer : List InputEntry) (now : ℚ) : List InputEntry :=
  buffer.filter (fun e => decide (e.processed = false ∨ now - e.timestamp < 1000))

/-- One player's slice of `QbitCityGameLoop.processPlayerInputs`: select
the most recent unprocessed input with timestamp ≤ `now`; if one exists,
apply it to the player and run the marking phase; finally drop stale
processed entries.  Returns the updated player and buffer. -/
def processPlayerBuffer (invSqrt2 : ℚ) (p : Player) (buffer : List InputEntry)
    (dt now : ℚ) (m : GameMap) (gameTime : ℚ) : Player × List InputEntry :=
  match selectLatest buffer now with
  | none => (p, filterOldInputs buffer now)
  | some idx =>
      (applyInputToPlayer invSqrt2 p (buffer.getD idx default) dt m gameTime,
       filterOldInputs (markSuperseded buffer idx now) now)

/-! ## World entities -/

/-- An enemy record, as built by `QbitCityGameStateManager.spawnEnemy`
(its `flankDir` object is flattened into two fields). -/
structure Enemy where
  id : String
  x : ℚ
  y : ℚ
  width : ℚ
  height : ℚ
  speed : ℚ
  trail : List (ℚ × ℚ)
  stuckTime : ℚ
  flankTimer : ℚ
  flankDirX : ℚ
  flankDirY : ℚ
  deriving DecidableEq

/-- A boat record, as built by `initializeBoats`. -/
structure Boat where
  id : String
  dist : ℚ
  x : ℚ
  y : ℚ
  w : ℚ
  h : ℚ
  velX : ℚ
  velY : ℚ
  life : ℚ
  maxLife : ℚ
  deriving DecidableEq

/-- A coin record, as built by `spawnCoin`. -/
structure Coin where
  id : String
  x : ℚ
  y : ℚ
  collected : Bool
  spawnTime : ℚ
  deriving DecidableEq

/-- An immunity pickup record, as built by `spawnImmunityPickup`. -/
structure ImmunityPickup where
  id : String
  x : ℚ
  y : ℚ
  collected : Bool
  quadrant : Nat
  spawnTime : ℚ
  deriving DecidableEq

/-- A sink collectible record, as built by `spawnSinkCollectible`. -/
structure SinkCollectible where
  id : String
  x : ℚ
  y : ℚ
  collected : Bool
  spawnTime : ℚ
  deriving DecidableEq

/-- A deployed sink trap, as pushed by the deploy-sink handler. -/
structure DeployedSink where
  id : String
  x : ℚ
  y : ℚ
  deployTime : ℚ
  deriving DecidableEq

/-- A portal record; map-generated portals carry no `life` field
(`none`), player-created ones carry `some 10`. -/
structure Portal where
  id : String
  x : ℚ
  y : ℚ
  color : String
  angle : ℚ
  life : Option ℚ
  deriving DecidableEq

instance : Inhabited Portal := ⟨⟨"", 0, 0, "", 0, none⟩⟩

/-- The per-room game state record built by
`QbitCityGameStateManager.initializeRoom`. -/
structure GameState where
  roomCode : String
  map : GameMap
  players : List Player
  enemies : List Enemy
  boats : List Boat
  coins : List Coin
  immunityPickups : List ImmunityPickup
  sinkCollectibles : List SinkCollectible
  deployedSinks : List DeployedSink
  portals : List Portal
  gameTime : ℚ
  enemySpawnTimer : ℚ
  coinSpawnTimer : ℚ
  immunityPickupSpawnTimer : ℚ
  sinkSpawnTimer : ℚ
  nextCoinSpawnTime : ℚ
  nextImmunityPickupSpawnTime : ℚ
  nextSinkSpawnTime : ℚ
  collectiblesInitialized : Bool
  coinsInitialized : Bool
  speedBoostApplied : Bool
  mapSeed : ℚ

/-! ## Distance tests

`Math.hypot(dx, dy) < r` (resp. `> r`) is embedded as the equivalent
comparison of squares, exact over the reals for `r ≥ 0`. -/

def sqDistLt (dx dy r : ℚ) : Bool := decide (dx * dx + dy * dy < r * r)

def sqDistGt (dx dy r : ℚ) : Bool := decide (dx * dx + dy * dy > r * r)

/-! ## Enemy spawning (`QbitCityGameStateManager.spawnEnemy`) -/

/-- The optional-chained tile read `tiles[ry]?.[rx]` with possibly
negative indices: `none` models JavaScript's `undefined`. -/
def getTileInt (tiles : List (List Nat)) (ry rx : Int) : Option Nat :=
  if 0 ≤ ry ∧ 0 ≤ rx then (tiles[ry.toNat]?).bind (fun row => row[rx.toNat]?) else none

/-- The rejection-sampling loop of `spawnEnemy` (at most 100 attempts,
each consuming two `Math.random()` draws): find a road tile whose centre
is farther than `minDist` from the avoid point.  Returns the found centre
and the advanced oracle cursor. -/
def spawnEnemyLoop (m : GameMap) (avoidX avoidY minDist : ℚ) (o : Nat → ℚ) :
    Nat → Nat → Option (ℚ × ℚ) × Nat
  | 0, k => (none, k)
  | fuel + 1, k =>
      if getTileInt m.tiles (⌊o (k + 1) * 48⌋ + 1) (⌊o k * 48⌋ + 1) = some 0 then
        if sqDistGt (((⌊o k * 48⌋ + 1 : Int) : ℚ) * 64 + 32 - avoidX)
            (((⌊o (k + 1) * 48⌋ + 1 : Int) : ℚ) * 64 + 32 - avoidY) minDist then
          (some (((⌊o k * 48⌋ + 1 : Int) : ℚ) * 64 + 32,
                 ((⌊o (k + 1) * 48⌋ + 1 : Int) : ℚ) * 64 + 32), k + 2)
        else spawnEnemyLoop m avoidX avoidY minDist o fuel (k + 2)
      else spawnEnemyLoop m avoidX avoidY minDist o fuel (k + 2)

/-- `QbitCityGameStateManager.spawnEnemy(map, avoidX, avoidY, minDist)`.
`wall` models `Date.now()` (used only inside the generated id string);
on success the enemy object construction consumes one draw for the id and
one for the speed. -/
def spawnEnemy (m : GameMap) (avoidX avoidY minDist wall : ℚ)
    (o : Nat → ℚ) (k : Nat) : Option Enemy × Nat :=
  match spawnEnemyLoop m avoidX avoidY minDist o 100 k with
  | (none, kk) => (none, kk)
  | (some (ex, ey), kk) =>
      (some
        { id := "enemy_" ++ toString wall ++ "_" ++ toString (o kk),
          x := ex,
          y := ey,
          width := 24,
          height := 24,
          speed := 250 + o (kk + 1) * 30,
          trail := [],
          stuckTime := 0,
          flankTimer := 0,
          flankDirX := 0,
          flankDirY := 0 }, kk + 2)

/-! ## The per-player collision pass (`QbitCityGameLoop.checkCollisions`) -/

/-- Game-balance constants of the source. -/
def COINS_FOR_IMMUNITY : Nat := 5

def MAX_IMMUNITY_INVENTORY : Nat := 3

def IMMUNITY_DURATION : ℚ := 10

/-- The boat test of the lava check: some boat's footprint overlaps the
player's bounding box. -/
def onBoat (p : Player) (boats : List Boat) : Bool :=
  boats.any fun b =>
    decide (|p.x - b.x| < b.w / 2 + p.width / 2) &&
    decide (|p.y - b.y| < b.h / 2 + p.height / 2)

/-- The coin-to-immunity conversion applied after a coin pickup has
incremented the counter: at 5 coins, gain a charge and reset to 0 if
under the inventory cap of 3, otherwise hold the counter at 4. -/
def coinConvert (p : Player) : Player :=
  if COINS_FOR_IMMUNITY ≤ p.coinsCollected then
    if p.immunityInventory < MAX_IMMUNITY_INVENTORY then
      { p with
        immunityInventory := p.immunityInventory + 1,
        coinsCollected := 0 }
    else { p with coinsCollected := COINS_FOR_IMMUNITY - 1 }
  else p

/-- One coin iteration of the collision pass: an uncollected coin within
25 units is collected, increments the counter and may convert. -/
def coinCheck (p : Player) (c : Coin) : Player × Coin :=
  if c.collected = true then (p, c)
  else if sqDistLt (p.x - c.x) (p.y - c.y) 25 then
    (coinConvert { p with coinsCollected := p.coinsCollected + 1 },
     { c with collected := true })
  else (p, c)

/-- The coin loop of the collision pass, threading the player. -/
def coinsPass (p : Player) (coins : List Coin) : Player × List Coin :=
  coins.foldl
    (fun acc c => ((coinCheck acc.1 c).1, acc.2 ++ [(coinCheck acc.1 c).2]))
    (p, [])

/-- One immunity-pickup iteration: contact (< 30) grants 10 seconds of
immunity from the current game time. -/
def pickupCheck (gameTime : ℚ) (p : Player) (u : ImmunityPickup) :
    Player × ImmunityPickup :=
  if u.collected = true then (p, u)
  else if sqDistLt (p.x - u.x) (p.y - u.y) 30 then
    ({ p with
       immunityActive := true,
       immunityEndTime := gameTime + IMMUNITY_DURATION },
     { u with collected := true })
  else (p, u)

/-- The immunity-pickup loop of the collision pass. -/
def pickupsPass (gameTime : ℚ) (p : Player) (us : List ImmunityPickup) :
    Player × List ImmunityPickup :=
  us.foldl
    (fun acc u =>
      ((pickupCheck gameTime acc.1 u).1, acc.2 ++ [(pickupCheck gameTime acc.1 u).2]))
    (p, [])

/-- One sink-collectible iteration: contact (< 30) grants a charge only
below the cap of 3 (the collectible then disappears). -/
def sinkCheck (p : Player) (s : SinkCollectible) : Player × SinkCollectible :=
  if s.collected = true then (p, s)
  else if sqDistLt (p.x - s.x) (p.y - s.y) 30 then
    if p.sinkInventory < 3 then
      ({ p with sinkInventory := p.sinkInventory + 1 }, { s with collected := true })
    else (p, s)
  else (p, s)

/-- The sink-collectible loop of the collision pass. -/
def sinksPass (p : Player) (ss : List SinkCollectible) :
    Player × List SinkCollectible :=
  ss.foldl
    (fun acc s => ((sinkCheck acc.1 s).1, acc.2 ++ [(sinkCheck acc.1 s).2]))
    (p, [])

/-- The enemy-contact loop: contact within combined half-widths signals a
death event if immunity is inactive, otherwise relocates the enemy to a
fresh spawn at least 500 units away.  Threads the enemy list (in order),
the event list and the oracle cursor. -/
def enemiesPass (m : GameMap) (wall : ℚ) (o : Nat → ℚ) (p : Player)
    (enemies : List Enemy) (k : Nat) :
    List Enemy × List (String × String) × Nat :=
  enemies.foldl
    (fun acc e =>
      if sqDistLt (p.x - e.x) (p.y - e.y) (p.width / 2 + e.width / 2) then
        if p.immunityActive = false then
          (acc.1 ++ [e], acc.2.1 ++ [("player_death", p.id)], acc.2.2)
        else
          match spawnEnemy m p.x p.y 500 wall o acc.2.2 with
          | (some np, kk) =>
              (acc.1 ++ [{ e with x := np.x, y := np.y, trail := [] }], acc.2.1, kk)
          | (none, kk) => (acc.1 ++ [e], acc.2.1, kk)
      else (acc.1 ++ [e], acc.2.1, acc.2.2))
    ([], [], k)

/-- The portal loop: entered only when the cooldown has elapsed (checked
once, before the loop); contact (< 20) teleports the player to a random
other portal, sets the cooldown to 2 and clears the trail.  The loop then
continues over the remaining portals with the moved player. -/
def portalsPass (o : Nat → ℚ) (portals : List Portal) (p : Player) (k : Nat) :
    Player × Nat :=
  if p.portalCooldown ≤ 0 then
    portals.enum.foldl
      (fun acc q =>
        if sqDistLt (acc.1.x - q.2.x) (acc.1.y - q.2.y) 20 then
          if 0 < (portals.eraseIdx q.1).length then
            ({ acc.1 with
               x := ((portals.eraseIdx q.1).getD
                  (⌊o acc.2 * ((portals.eraseIdx q.1).length : ℚ)⌋).toNat default).x,
               y := ((portals.eraseIdx q.1).getD
                  (⌊o acc.2 * ((portals.eraseIdx q.1).length : ℚ)⌋).toNat default).y,
               portalCooldown := 2,
               trail := [] }, acc.2 + 1)
          else acc
        else acc)
      (p, k)
  else (p, k)

/-- The deployed-sink sweep for one enemy: the source iterates the sink
array from the last index downwards, splicing out any sink within 25
units and relocating the enemy at least 1000 units from the acting
player; `foldr` visits the last sink first, matching that order. -/
def enemySinkOne (m : GameMap) (wall : ℚ) (o : Nat → ℚ) (px py : ℚ)
    (e : Enemy) (sinks : List DeployedSink) (k : Nat) :
    Enemy × List DeployedSink × Nat :=
  sinks.foldr
    (fun s acc =>
      if sqDistLt (acc.1.x - s.x) (acc.1.y - s.y) 25 then
        match spawnEnemy m px py 1000 wall o acc.2.2 with
        | (some np, kk) =>
            ({ acc.1 with x := np.x, y := np.y, trail := [] }, acc.2.1, kk)
        | (none, kk) => (acc.1, acc.2.1, kk)
      else (acc.1, s :: acc.2.1, acc.2.2))
    (e, [], k)

/-- The enemy/deployed-sink loop of the collision pass. -/
def enemySinksPass (m : GameMap) (wall : ℚ) (o : Nat → ℚ) (px py : ℚ)
    (enemies : List Enemy) (sinks : List DeployedSink) (k : Nat) :
    List Enemy × List DeployedSink × Nat :=
  enemies.foldl
    (fun acc e =>
      ((acc.1 ++ [(enemySinkOne m wall o px py e acc.2.1 acc.2.2).1],
        (enemySinkOne m wall o px py e acc.2.1 acc.2.2).2.1,
        (enemySinkOne m wall o px py e acc.2.1 acc.2.2).2.2)))
    ([], sinks, k)

/-- The result of the collision pass for a single player: the updated
player, the world lists it mutates, the emitted `player_death` events and
the advanced oracle cursor. -/
structure PlayerPassResult where
  player : Player
  enemies : List Enemy
  coins : List Coin
  immunityPickups : List ImmunityPickup
  sinkCollectibles : List SinkCollectible
  deployedSinks : List DeployedSink
  events : List (String × String)
  cursor : Nat
  deriving DecidableEq

/-- Everything `checkCollisions` runs for one player after the lava check
has passed: enemy contacts, then coins, immunity pickups, sink
collectibles, portals, and the deployed-sink sweep, in source order. -/
def collisionChecksAfterLava (gs : GameState) (p : Player) (wall : ℚ)
    (o : Nat → ℚ) (k : Nat) : PlayerPassResult :=
  let r1 := enemiesPass gs.map wall o p gs.enemies k
  let r2 := coinsPass p gs.coins
  let r3 := pickupsPass gs.gameTime r2.1 gs.immunityPickups
  let r4 := sinksPass r3.1 gs.sinkCollectibles
  let r5 := portalsPass o gs.portals r4.1 r1.2.2
  let r6 := enemySinksPass gs.map wall o r5.1.x r5.1.y r1.1 gs.deployedSinks r5.2
  { player := r5.1,
    enemies := r6.1,
    coins := r2.2,
    immunityPickups := r3.2,
    sinkCollectibles := r4.2,
    deployedSinks := r6.2.1,
    events := r1.2.1,
    cursor := r6.2.2 }

/-- The unchanged-world result returned when the lava check fires: the
single death event, everything else untouched, no randomness consumed. -/
def lavaDeathResult (gs : GameState) (p : Player) (k : Nat) : PlayerPassResult :=
  { player := p,
    enemies := gs.enemies,
    coins := gs.coins,
    immunityPickups := gs.immunityPickups,
    sinkCollectibles := gs.sinkCollectibles,
    deployedSinks := gs.deployedSinks,
    events := [("player_death", p.id)],
    cursor := k }

/-- One player's slice of `QbitCityGameLoop.checkCollisions`: if the
player's tile is in range and lava and no boat overlaps, signal a death
event and skip every remaining check for this player; otherwise run the
remaining checks. -/
def checkCollisionsPlayer (gs : GameState) (p : Player) (wall : ℚ)
    (o : Nat → ℚ) (k : Nat) : PlayerPassResult :=
  if (0 ≤ ⌊p.y / 64⌋ ∧ ⌊p.y / 64⌋ < 50 ∧ 0 ≤ ⌊p.x / 64⌋ ∧ ⌊p.x / 64⌋ < 50)
      ∧ getTile gs.map.tiles (⌊p.y / 64⌋).toNat (⌊p.x / 64⌋).toNat = 4
      ∧ onBoat p gs.boats = false then
    lavaDeathResult gs p k
  else collisionChecksAfterLava gs p wall o k

/-! ## Coin spawning (`QbitCityGameLoop.handleSpawning`, coin fragment,
and `QbitCityGameStateManager.initializeRoom`) -/

/-- The number of uncollected coins:
`gameState.coins.filter(c => !c.collected).length`. -/
def uncollectedCoins (coins : List Coin) : Nat :=
  (coins.filter (fun c => !c.collected)).length

/-- The rejection-sampling loop of `spawnCoin` (at most 100 attempts, two
draws per attempt): a road tile at least 200 units from every player; on
success push one uncollected coin (one further draw for the id). -/
def spawnCoinLoop (wall : ℚ) (o : Nat → ℚ) :
    Nat → GameState → Nat → GameState × Nat
  | 0, gs, k => (gs, k)
  | fuel + 1, gs, k =>
      if getTileInt gs.map.tiles (⌊o (k + 1) * 48⌋ + 1) (⌊o k * 48⌋ + 1) = some 0 then
        if gs.players.any (fun q =>
            sqDistLt (((⌊o k * 48⌋ + 1 : Int) : ℚ) * 64 + 32 - q.x)
              (((⌊o (k + 1) * 48⌋ + 1 : Int) : ℚ) * 64 + 32 - q.y) 200) then
          spawnCoinLoop wall o fuel gs (k + 2)
        else
          ({ gs with
             coins := gs.coins ++
               [{ id := "coin_" ++ toString wall ++ "_" ++ toString (o (k + 2)),
                  x := ((⌊o k * 48⌋ + 1 : Int) : ℚ) * 64 + 32,
                  y := ((⌊o (k + 1) * 48⌋ + 1 : Int) : ℚ) * 64 + 32,
                  collected := false,
                  spawnTime := wall / 1000 }] }, k + 3)
      else spawnCoinLoop wall o fuel gs (k + 2)

/-- `QbitCityGameLoop.spawnCoin`: skipped entirely while 40 uncollected
coins exist. -/
def spawnCoin (wall : ℚ) (o : Nat → ℚ) (gs : GameState) (k : Nat) :
    GameState × Nat :=
  if 40 ≤ uncollectedCoins gs.coins then (gs, k)
  else spawnCoinLoop wall o 100 gs k

/-- `n` sequential `spawnCoin` calls (the `for` loops of
`handleSpawning`). -/
def spawnCoinN (wall : ℚ) (o : Nat → ℚ) :
    Nat → GameState → Nat → GameState × Nat
  | 0, gs, k => (gs, k)
  | n + 1, gs, k =>
      spawnCoinN wall o n (spawnCoin wall o gs k).1 (spawnCoin wall o gs k).2

/-- The initial `nextCoinSpawnTime` set by `initializeRoom`:
`10 + Math.random() * 5` (`r` is the consumed draw). -/
def initialNextCoinSpawnTime (r : ℚ) : ℚ := 10 + r * 5

/-- The coin fragment of `QbitCityGameLoop.handleSpawning` (the remainder
of `handleSpawning` neither reads nor writes the coin fields): seed 20
spawn attempts once, advance the timer by `deltaTime`, and when the timer
reaches `nextCoinSpawnTime` reset it, draw the next interval
`3 + Math.random() * 4` and make `3 + Math.floor(Math.random() * 3)`
spawn attempts. -/
def handleSpawningCoins (gs : GameState) (dt wall : ℚ) (o : Nat → ℚ)
    (k : Nat) : GameState × Nat :=
  let r1 : GameState × Nat :=
    if gs.coinsInitialized = false then
      spawnCoinN wall o 20 { gs with coinsInitialized := true } k
    else (gs, k)
  let gs2 : GameState := { r1.1 with coinSpawnTimer := r1.1.coinSpawnTimer + dt }
  if gs2.nextCoinSpawnTime ≤ gs2.coinSpawnTimer then
    spawnCoinN wall o (3 + ⌊o (r1.2 + 1) * 3⌋).toNat
      { gs2 with coinSpawnTimer := 0, nextCoinSpawnTime := 3 + o r1.2 * 4 }
      (r1.2 + 2)
  else (gs2, r1.2)

/-! ## The tick scheduler (`QbitCityGameLoop.tick`) -/

/-- A room as the scheduler sees it. -/
structure Room where
  code : String
  status : String
  deriving DecidableEq

/-- `QbitCityGameLoop.tick` under JavaScript exception semantics: the
source iterates `getAllRooms().forEach(room => { if playing then
updateRoom(...) })` with no per-room `try`/`catch`, so an exception thrown
inside `updateRoom` propagates out of the `forEach` callback and aborts
the remaining iterations.  `update` abstracts `updateRoom`
(`Except.error` models a thrown exception); the result collects the codes
of the rooms that were updated this tick, and the fault if one occurred. -/
def tickUpdatedRooms (update : Room → Except String Unit) :
    List Room → List String × Option String
  | [] => ([], none)
  | r :: rs =>
      if r.status = "playing" then
        match update r with
        | Except.ok _ =>
            (r.code :: (tickUpdatedRooms update rs).1, (tickUpdatedRooms update rs).2)
        | Except.error e => ([], some e)
      else tickUpdatedRooms update rs

/-! ## Example data for concrete witnesses -/

/-- A minimal map whose only tile is road. -/
def exMap : GameMap :=
  { width := 3200,
    height := 3200,
    tiles := [[0]],
    buildings := [],
    trees := [] }

/-- An example player as `initializePlayers` builds them. -/
def exPlayer : Player :=
  { id := "p1",
    name := "Ada",
    x := 32,
    y := 32,
    width := 24,
    height := 24,
    speed := 300,
    velX := 0,
    velY := 0,
    dirX := 0,
    dirY := 1,
    trail := [],
    portalCooldown := 0,
    coinsCollected := 0,
    immunityInventory := 0,
    sinkInventory := 0,
    energy := 0,
    immunityActive := false,
    immunityEndTime := 0 }

/-- A map whose only tile is lava, with the player's tile at `(0, 0)`. -/
def exLavaMap : GameMap :=
  { width := 3200,
    height := 3200,
    tiles := [[4]],
    buildings := [],
    trees := [] }

/-- A boat sitting exactly on the example player. -/
def exBoat : Boat :=
  { id := "boat_0",
    dist := 0,
    x := 32,
    y := 32,
    w := 48,
    h := 48,
    velX := 0,
    velY := 0,
    life := 10,
    maxLife := 10 }

/-- An enemy sitting exactly on the example player. -/
def exEnemy : Enemy :=
  { id := "e1",
    x := 32,
    y := 32,
    width := 24,
    height := 24,
    speed := 250,
    trail := [],
    stuckTime := 0,
    flankTimer := 0,
    flankDirX := 0,
    flankDirY := 0 }

/-- A game state with the example player standing on lava, on a boat,
with an enemy in contact. -/
def exGs : GameState :=
  { roomCode := "ROOM",
    map := exLavaMap,
    players := [exPlayer],
    enemies := [exEnemy],
    boats := [exBoat],
    coins := [],
    immunityPickups := [],
    sinkCollectibles := [],
    deployedSinks := [],
    portals := [],
    gameTime := 0,
    enemySpawnTimer := 0,
    coinSpawnTimer := 0,
    immunityPickupSpawnTimer := 0,
    sinkSpawnTimer := 0,
    nextCoinSpawnTime := 12,
    nextImmunityPickupSpawnTime := 25,
    nextSinkSpawnTime := 25,
    collectiblesInitialized := false,
    coinsInitialized := true,
    speedBoostApplied := false,
    mapSeed := 1 }

/-- The same state without the boat. -/
def exGsNoBoat : GameState :=
  { exGs with boats := [] }

/-- A steady state for the coin-schedule counterexample: coins already
seeded, spawn interval as set by `initializeRoom` with draw `1/2`, ten
seconds on the timer. -/
def exGsCoins : GameState :=
  { exGs with
    nextCoinSpawnTime := initialNextCoinSpawnTime (1/2),
    coinSpawnTimer := 10 }

/-- Two playing rooms for the tick-scheduler fault demonstration. -/
def roomA : Room := ⟨"AAAA", "playing"⟩

def roomB : Room := ⟨"BBBB", "playing"⟩

/-- An `updateRoom` that throws on room `AAAA` (for instance a `TypeError`
from an unexpected null in that room's state) and succeeds elsewhere. -/
def updFault : Room → Except String Unit :=
  fun r => if r.code = "AAAA" then Except.error "TypeError" else Except.ok ()

/-! ## Theorems -/

/-! ## List helper lemmas -/

theorem getD_eq_get {α : Type _} (l : List α) (d : α) {n : Nat} (h : n < l.length) :
    l.getD n d = l[n] := by
  rw [List.getD_eq_getElem?_getD, List.getElem?_eq_getElem h, Option.getD_some]

theorem getD_of_length_le {α : Type _} (l : List α) (d : α) {n : Nat} (h : l.length ≤ n) :
    l.getD n d = d := by
  rw [List.getD_eq_getElem?_getD, List.getElem?_eq_none h, Option.getD_none]

theorem getD_set_self {α : Type _} (l : List α) (v d : α) {n : Nat} (h : n < l.length) :
    (l.set n v).getD n d = v := by
  rw [List.getD_eq_getElem?_getD, List.getElem?_set_self (by simpa using h), Option.getD_some]

theorem getD_set_ne {α : Type _} (l : List α) (v d : α) {m n : Nat} (h : m ≠ n) :
    (l.set m v).getD n d = l.getD n d := by
  rw [List.getD_eq_getElem?_getD, List.getElem?_set_ne h, List.getD_eq_getElem?_getD]

/-- A `foldl` preserves any invariant preserved by each step. -/
theorem foldl_preserve {α β : Type _} {f : α → β → α} {P : α → Prop}
    (hstep : ∀ a c, P a → P (f a c)) :
    ∀ (l : List β) (a : α), P a → P (l.foldl f a) := by
  intro l
  induction l with
  | nil => intro a h; exact h
  | cons c l ih => intro a h; exact ih _ (hstep a c h)

/-- If some element `b` of the list establishes `P` (under an invariant `I`
preserved by every step), and every step preserves `P`, then the fold ends
in `P`. -/
theorem foldl_establish {α β : Type _} {f : α → β → α} {I P : α → Prop} {b : β}
    (hI : ∀ a c, I a → I (f a c))
    (hP : ∀ a c, I a → P a → P (f a c))
    (hEst : ∀ a, I a → P (f a b)) :
    ∀ (l : List β) (a : α), b ∈ l → I a → P (l.foldl f a) := by
  intro l
  induction l with
  | nil => intro a hb; exact absurd hb (List.not_mem_nil b)
  | cons c l ih =>
    intro a hb ha
    rcases List.mem_cons.mp hb with h1 | h1
    · subst h1
      have hPc : P (f a b) := hEst a ha
      have hIc : I (f a b) := hI a b ha
      have := foldl_preserve (P := fun a => I a ∧ P a)
        (fun a c h => ⟨hI a c h.1, hP a c h.1 h.2⟩) l _ ⟨hIc, hPc⟩
      exact this.2
    · exact ih _ h1 (hI a c ha)

theorem grid50_setTile {t : List (List Nat)} (h : Grid50 t) (y x v : Nat) :
    Grid50 (setTile t y x v) := by
  obtain ⟨hl, hr⟩ := h
  by_cases hy : y < t.length
  · refine ⟨by simp [setTile, hl], ?_⟩
    intro row hrow
    rcases List.mem_or_eq_of_mem_set hrow with h1 | h1
    · exact hr row h1
    · subst h1
      rw [List.length_set, getD_eq_get _ _ hy]
      exact hr _ (List.getElem_mem hy)
  · unfold setTile
    rw [List.set_eq_of_length_le (Nat.le_of_not_lt hy)]
    exact ⟨hl, hr⟩

theorem getTile_setTile_self {t : List (List Nat)} (h : Grid50 t)
    {y x : Nat} (hy : y < 50) (hx : x < 50) (v : Nat) :
    getTile (setTile t y x v) y x = v := by
  obtain ⟨hl, hr⟩ := h
  have hyl : y < t.length := by omega
  have hrl : (t.getD y []).length = 50 := by
    rw [getD_eq_get _ _ hyl]; exact hr _ (List.getElem_mem hyl)
  unfold getTile setTile
  rw [getD_set_self _ _ _ hyl, getD_set_self _ _ _ (by omega)]

/-- Writing any cell either leaves a given cell unchanged or overwrites it
with the written value. -/
theorem getTile_setTile_cases (t : List (List Nat)) (a b y x v : Nat) :
    getTile (setTile t a b v) y x = v ∨
      getTile (setTile t a b v) y x = getTile t y x := by
  unfold getTile setTile
  by_cases hay : a = y
  · subst hay
    by_cases hal : a < t.length
    · rw [getD_set_self _ _ _ hal]
      by_cases hbx : b = x
      · subst hbx
        by_cases hbl : b < (t.getD a []).length
        · left; rw [getD_set_self _ _ _ hbl]
        · right; rw [List.set_eq_of_length_le (Nat.le_of_not_lt hbl)]
      · right; rw [getD_set_ne _ _ _ hbx]
    · right; rw [List.set_eq_of_length_le (Nat.le_of_not_lt hal)]
  · right; rw [getD_set_ne _ _ _ hay]

theorem grid50_blotCell {t : List (List Nat)} (h : Grid50 t) (ly lx : Int) :
    Grid50 (blotCell t ly lx) := by
  unfold blotCell
  split
  · split
    · exact grid50_setTile h _ _ _
    · exact h
  · exact h

theorem grid50_waterBlot {t : List (List Nat)} (h : Grid50 t) (y x : Nat) :
    Grid50 (waterBlot t y x) := by
  unfold waterBlot
  refine foldl_preserve (P := Grid50) ?_ _ _ h
  intro a dy ha
  exact foldl_preserve (P := Grid50) (fun a dx ha => grid50_blotCell ha _ _) _ _ ha

theorem grid50_genCell {st : List (List Nat) × ℚ} (h : Grid50 st.1) (y x : Nat) :
    Grid50 (genCell st y x).1 := by
  unfold genCell
  split
  · exact grid50_setTile h _ _ _
  · split
    · exact grid50_waterBlot h _ _
    · split
      · exact grid50_setTile h _ _ _
      · exact h

theorem grid50_genPass {st : List (List Nat) × ℚ} (h : Grid50 st.1) :
    Grid50 (genPass st).1 := by
  unfold genPass
  refine foldl_preserve (P := fun (st : List (List Nat) × ℚ) => Grid50 st.1) ?_ _ _ h
  intro a y ha
  exact foldl_preserve (P := fun (st : List (List Nat) × ℚ) => Grid50 st.1)
    (fun a x ha => grid50_genCell ha y x) _ _ ha

theorem grid50_perimCell {t : List (List Nat)} (h : Grid50 t) (y x : Nat) :
    Grid50 (perimCell t y x) := by
  unfold perimCell
  split
  · exact grid50_setTile h _ _ _
  · exact h

theorem perimRow_lava {y x : Nat} (hy : y < 50) (hx : x < 50)
    (hperim : x = 0 ∨ x = 49 ∨ y = 0 ∨ y = 49) :
    ∀ t, Grid50 t →
      getTile ((List.range 50).foldl (fun acc2 x => perimCell acc2 y x) t) y x = 4 := by
  intro t ht
  refine foldl_establish
    (I := Grid50) (P := fun t => getTile t y x = 4)
    (fun a c ha => grid50_perimCell ha _ _)
    ?_ ?_ _ t (List.mem_range.mpr hx) ht
  · intro a c ha hPa
    unfold perimCell
    split
    · rcases getTile_setTile_cases a y c y x 4 with h | h <;> rw [h]
      exact hPa
    · exact hPa
  · intro a ha
    unfold perimCell
    rw [if_pos hperim]
    exact getTile_setTile_self ha hy hx 4

theorem perimPass_lava {t : List (List Nat)} (ht : Grid50 t)
    {y x : Nat} (hy : y < 50) (hx : x < 50)
    (hperim : x = 0 ∨ x = 49 ∨ y = 0 ∨ y = 49) :
    getTile (perimPass t) y x = 4 := by
  unfold perimPass
  refine foldl_establish
    (I := Grid50) (P := fun t => getTile t y x = 4)
    ?_ ?_ ?_ _ t (List.mem_range.mpr hy) ht
  · intro a c ha
    exact foldl_preserve (P := Grid50) (fun a x' ha => grid50_perimCell ha _ _) _ _ ha
  · intro a c ha hPa
    refine (foldl_preserve (P := fun t => Grid50 t ∧ getTile t y x = 4) ?_ _ _ ⟨ha, hPa⟩).2
    intro a' x' h'
    refine ⟨grid50_perimCell h'.1 _ _, ?_⟩
    unfold perimCell
    split
    · rcases getTile_setTile_cases a' c x' y x 4 with h | h <;> rw [h]
      exact h'.2
    · exact h'.2
  · intro a ha
    exact perimRow_lava hy hx hperim a ha

theorem grid50_initial : Grid50 (List.replicate 50 (List.replicate 50 1)) := by
  constructor
  · simp
  · intro row hrow
    rw [List.eq_of_mem_replicate hrow]
    simp

/-- C5: Map generation is deterministic in its seed: for every seed, two
runs of `generateMap` with the same seed — under arbitrary (and possibly
different) ambient `Math.random` streams — produce identical tile grids,
identical building lists and identical tree lists: the generator consumes
randomness only from the seeded linear-congruential generator. -/
theorem generateMap_deterministic (seed : ℚ) (o₁ o₂ : Nat → ℚ) :
    (generateMap seed o₁).tiles = (generateMap seed o₂).tiles ∧
    (generateMap seed o₁).buildings = (generateMap seed o₂).buildings ∧
    (generateMap seed o₁).trees = (generateMap seed o₂).trees :=
  ⟨rfl, rfl, rfl⟩

/-- C6: for every seed (and ambient randomness), every perimeter tile
(`x = 0`, `x = 49`, `y = 0` or `y = 49`) of the generated 50×50 grid is
lava (tile kind 4), overriding whatever the road/water/grass passes
assigned there. -/
theorem generateMap_perimeter_lava (seed : ℚ) (o : Nat → ℚ) (y x : Nat)
    (hy : y < 50) (hx : x < 50)
    (hperim : x = 0 ∨ x = 49 ∨ y = 0 ∨ y = 49) :
    getTile (generateMap seed o).tiles y x = 4 := by
  have ht : (generateMap seed o).tiles = mapTiles seed := by simp [generateMap]
  rw [ht]
  unfold mapTiles genTilesRng
  exact perimPass_lava (grid50_genPass grid50_initial) hy hx hperim

/-- Witness for C6 at a concrete seed and perimeter cell. -/
theorem generateMap_perimeter_lava_witness :
    getTile (generateMap 12345 (fun _ => 0)).tiles 0 7 = 4 :=
  generateMap_perimeter_lava 12345 (fun _ => 0) 0 7 (by decide) (by decide)
    (by right; right; left; rfl)

/-! ### Input buffer invariant (C7) -/

theorem tsLe_trans : ∀ a c d : InputEntry, tsLe a c → tsLe c d → tsLe a d := by
  intro a c d h1 h2
  simp only [tsLe, decide_eq_true_eq] at h1 h2 ⊢
  exact le_trans h1 h2

theorem tsLe_total : ∀ a c : InputEntry, tsLe a c || tsLe c a := by
  intro a c
  simp only [tsLe, Bool.or_eq_true, decide_eq_true_eq]
  exact le_total _ _

/-- One push keeps the buffer within 60 entries and sorted by timestamp. -/
theorem bufferPlayerInput_step {buf : List InputEntry} (k : Keys) (t : ℚ)
    (hlen : buf.length ≤ 60) :
    (bufferPlayerInput buf k t).length ≤ 60 ∧
      (bufferPlayerInput buf k t).Pairwise (fun a c => a.timestamp ≤ c.timestamp) := by
  unfold bufferPlayerInput
  have hsortedB : ((buf ++ [(⟨k, t, false⟩ : InputEntry)]).mergeSort tsLe).Pairwise
      (fun a c => tsLe a c) :=
    List.sorted_mergeSort tsLe_trans tsLe_total _
  have hsorted : ((buf ++ [(⟨k, t, false⟩ : InputEntry)]).mergeSort tsLe).Pairwise
      (fun a c => a.timestamp ≤ c.timestamp) := by
    refine hsortedB.imp ?_
    intro a c h
    simpa [tsLe] using h
  have hblen : ((buf ++ [(⟨k, t, false⟩ : InputEntry)]).mergeSort tsLe).length
      = buf.length + 1 := by
    simp
  split
  · constructor
    · rw [List.length_tail, hblen]; omega
    · exact hsorted.sublist (List.tail_sublist _)
  · constructor
    · omega
    · exact hsorted

/-- C7: starting from an empty buffer, after every sequence of buffered
pushes the player's input buffer holds at most 60 entries, and its entries
are in non-decreasing timestamp order (each push appends, stably re-sorts
ascending by timestamp, and drops the front entry when the length exceeds
60).  Every prefix of a push sequence is itself a push sequence, so this
states the invariant after each push. -/
theorem bufferPlayerInput_bounded_sorted (pushes : List (Keys × ℚ)) :
    (pushes.foldl (fun buf q => bufferPlayerInput buf q.1 q.2) []).length ≤ 60 ∧
    (pushes.foldl (fun buf q => bufferPlayerInput buf q.1 q.2) []).Pairwise
      (fun a c => a.timestamp ≤ c.timestamp) := by
  refine foldl_preserve
    (P := fun buf => buf.length ≤ 60 ∧
      buf.Pairwise (fun (a c : InputEntry) => a.timestamp ≤ c.timestamp))
    ?_ pushes [] ⟨by simp, List.Pairwise.nil⟩
  intro a c h
  exact bufferPlayerInput_step c.1 c.2 h.1

/-! ### Collision solidity rules (C4) -/

theorem hitTile_congr (x y w h : ℚ) (m : GameMap) {g q : Nat → Bool}
    (hpq : ∀ tile, g tile = q tile) :
    hitTile x y w h m g = hitTile x y w h m q := by
  have : g = q := funext hpq
  rw [this]

theorem tileSolid_roadGrass {m : GameMap}
    (hm : ∀ row ∈ m.tiles, ∀ tile ∈ row, tile = 0 ∨ tile = 2)
    (isPlayer : Bool) (a c : Nat) :
    tileSolid (getTile m.tiles a c) isPlayer = false := by
  have htile : getTile m.tiles a c = 0 ∨ getTile m.tiles a c = 2 := by
    unfold getTile
    by_cases ha : a < m.tiles.length
    · rw [getD_eq_get _ _ ha]
      by_cases hc : c < m.tiles[a].length
      · rw [getD_eq_get _ _ hc]
        exact hm _ (List.getElem_mem ha) _ (List.getElem_mem hc)
      · rw [getD_of_length_le _ _ (Nat.le_of_not_lt hc)]
        exact Or.inl rfl
    · rw [getD_of_length_le _ _ (Nat.le_of_not_lt ha)]
      exact Or.inl (by simp)
  rcases htile with he | he <;> rw [he] <;> simp [tileSolid]

theorem hitTile_of_no_solid {x y w h : ℚ} {m : GameMap} {g : Nat → Bool}
    (hg : ∀ a c : Nat, g (getTile m.tiles a c) = false) :
    hitTile x y w h m g = false := by
  unfold hitTile
  rw [List.any_eq_false]
  intro dy _
  rw [Bool.not_eq_true, List.any_eq_false]
  intro dx _
  rw [Bool.not_eq_true]
  unfold tileHit
  rw [hg]
  simp

/-- C4: for every position, bounding box and map, the collision test with
`isPlayer = true` holds exactly when a building (sidewalk, tile 1) or
water (tile 3) cell of the scanned neighbourhood overlaps the box — in
particular a lava tile alone never blocks a player and road/grass never
block; with `isPlayer = false` it holds exactly when a building, water or
lava (tile 4) cell overlaps — so lava additionally blocks non-player
actors; and on a map containing only road (0) and grass (2) tiles the
test rejects for every actor kind. -/
theorem checkCollision_solidity (x y w h : ℚ) (m : GameMap) :
    checkCollision x y w h m true
        = hitTile x y w h m (fun tile => tile == 1 || tile == 3) ∧
    checkCollision x y w h m false
        = hitTile x y w h m (fun tile => tile == 1 || tile == 3 || tile == 4) ∧
    ∀ isPlayer : Bool, (∀ row ∈ m.tiles, ∀ tile ∈ row, tile = 0 ∨ tile = 2) →
      checkCollision x y w h m isPlayer = false := by
  refine ⟨?_, ?_, ?_⟩
  · exact hitTile_congr x y w h m (fun tile => by simp [tileSolid])
  · exact hitTile_congr x y w h m (fun tile => by simp [tileSolid])
  · intro isPlayer hm
    exact hitTile_of_no_solid (fun a c => tileSolid_roadGrass hm isPlayer a c)

/-- Witness for C4 on a concrete road-only map. -/
theorem checkCollision_solidity_witness :
    checkCollision 32 32 24 24 exMap true = false :=
  (checkCollision_solidity 32 32 24 24 exMap).2.2 true (by decide)

/-! ### Latest-wins input selection (C2) and the idle frame rule (C10) -/

/-- A `foldl` preserves an invariant preserved by each step taken on list
elements. -/
theorem foldl_preserve_mem {α β : Type _} {f : α → β → α} {P : α → Prop}
    {l : List β} (hstep : ∀ a c, c ∈ l → P a → P (f a c)) :
    ∀ a, P a → P (l.foldl f a) := by
  induction l with
  | nil => intro a h; exact h
  | cons c l ih =>
    intro a h
    exact ih (fun a c' hc' => hstep a c' (List.mem_cons_of_mem c hc')) _
      (hstep a c (List.mem_cons_self c l) h)

/-- On a two-entry buffer, the downward scan selects index 1 when both
entries are unprocessed, in timestamp order, and the later one is due. -/
theorem selectLatest_pair {e1 e2 : InputEntry} {now : ℚ}
    (h1 : e1.processed = false) (h2 : e2.processed = false)
    (hlt : e1.timestamp < e2.timestamp) (hle : e2.timestamp ≤ now) :
    selectLatest [e1, e2] now = some 1 := by
  have hr : (List.range ([e1, e2] : List InputEntry).length).reverse = [1, 0] := rfl
  have g1 : ([e1, e2] : List InputEntry).getD 1 default = e2 := rfl
  have g0 : ([e1, e2] : List InputEntry).getD 0 default = e1 := rfl
  unfold selectLatest
  rw [hr]
  simp only [List.foldl_cons, List.foldl_nil, g0, g1]
  rw [if_pos ⟨h1, le_trans (le_of_lt hlt) hle⟩, if_pos ⟨h2, hle⟩]
  show (if e2.timestamp < e1.timestamp then some 0 else some 1) = some 1
  rw [if_neg (not_lt.mpr (le_of_lt hlt))]

/-- C2: if a player's buffer holds exactly two unprocessed inputs with
timestamps `t1 < t2 ≤ now`, then the per-tick input pass applies only the
input at `t2` to the player (the result is exactly one application of
`applyInputToPlayer` with that input), and the marking phase marks both
entries processed; the superseded input at `t1` is never applied. -/
theorem processPlayerInputs_latest_wins (iv : ℚ) (p : Player) (m : GameMap)
    (gt dt now : ℚ) (e1 e2 : InputEntry)
    (h1 : e1.processed = false) (h2 : e2.processed = false)
    (hlt : e1.timestamp < e2.timestamp) (hle : e2.timestamp ≤ now) :
    (processPlayerBuffer iv p [e1, e2] dt now m gt).1
        = applyInputToPlayer iv p e2 dt m gt ∧
    markSuperseded [e1, e2] 1 now = [markProcessed e1, markProcessed e2] := by
  have hmark : markSuperseded [e1, e2] 1 now = [markProcessed e1, markProcessed e2] := by
    have g1 : ([e1, e2] : List InputEntry).getD 1 default = e2 := rfl
    unfold markSuperseded
    rw [g1]
    have hset : ([e1, e2] : List InputEntry).set 1 (markProcessed e2)
        = [e1, markProcessed e2] := rfl
    rw [hset]
    simp only [List.mapIdx]
    simp only [List.mapIdx.go]
    rw [if_pos ⟨Nat.zero_lt_one, le_trans (le_of_lt hlt) hle⟩]
    rw [if_neg (by simp)]
    rfl
  refine ⟨?_, hmark⟩
  unfold processPlayerBuffer
  rw [selectLatest_pair h1 h2 hlt hle]
  rfl

/-- Witness for C2 at concrete inputs. -/
theorem processPlayerInputs_latest_wins_witness :
    (processPlayerBuffer 1 exPlayer
        [(⟨default, 50, false⟩ : InputEntry), (⟨default, 60, false⟩ : InputEntry)]
        (1/20) 100 exMap 0).1
      = applyInputToPlayer 1 exPlayer (⟨default, 60, false⟩ : InputEntry) (1/20) exMap 0 ∧
    markSuperseded
        [(⟨default, 50, false⟩ : InputEntry), (⟨default, 60, false⟩ : InputEntry)] 1 100
      = [markProcessed (⟨default, 50, false⟩ : InputEntry),
         markProcessed (⟨default, 60, false⟩ : InputEntry)] :=
  processPlayerInputs_latest_wins 1 exPlayer exMap 0 (1/20) 100 _ _ rfl rfl
    (by norm_num) (by norm_num)

/-- When no buffered entry is both unprocessed and due, the downward scan
selects nothing. -/
theorem selectLatest_none {buffer : List InputEntry} {now : ℚ}
    (h : ∀ e ∈ buffer, e.processed = true ∨ now < e.timestamp) :
    selectLatest buffer now = none := by
  unfold selectLatest
  refine foldl_preserve_mem (P := fun acc => acc = none) ?_ none rfl
  intro acc i hi hacc
  subst hacc
  have hilen : i < buffer.length := List.mem_range.mp (List.mem_reverse.mp hi)
  have hmem : buffer.getD i default ∈ buffer := by
    rw [getD_eq_get _ _ hilen]
    exact List.getElem_mem hilen
  rcases h _ hmem with hp | ht
  · rw [if_neg]
    rintro ⟨hc, -⟩
    rw [hp] at hc
    exact Bool.noConfusion hc
  · rw [if_neg]
    rintro ⟨-, hc⟩
    exact absurd hc (not_le.mpr ht)

/-- C10: on a tick where a player has no unprocessed buffered input with
timestamp ≤ the current time, the input pass leaves that player entirely
unchanged — in particular (conjuncts two and three) the portal cooldown is
not decremented and the active-immunity flag is not expired, because both
updates live inside `applyInputToPlayer`, which only runs when an input is
selected. -/
theorem processPlayerInputs_idle_frame (iv : ℚ) (p : Player)
    (buffer : List InputEntry) (dt now gt : ℚ) (m : GameMap)
    (h : ∀ e ∈ buffer, e.processed = true ∨ now < e.timestamp) :
    (processPlayerBuffer iv p buffer dt now m gt).1 = p ∧
    (processPlayerBuffer iv p buffer dt now m gt).1.portalCooldown = p.portalCooldown ∧
    (processPlayerBuffer iv p buffer dt now m gt).1.immunityActive = p.immunityActive := by
  have hp : (processPlayerBuffer iv p buffer dt now m gt).1 = p := by
    unfold processPlayerBuffer
    rw [selectLatest_none h]
  exact ⟨hp, by rw [hp], by rw [hp]⟩

/-- Witness for C10: a buffer holding one processed entry and one future
entry leaves the player untouched. -/
theorem processPlayerInputs_idle_frame_witness :
    (processPlayerBuffer 1 exPlayer
        [(⟨default, 5, true⟩ : InputEntry), (⟨default, 200, false⟩ : InputEntry)]
        (1/20) 100 exMap 0).1 = exPlayer :=
  (processPlayerInputs_idle_frame 1 exPlayer
    [(⟨default, 5, true⟩ : InputEntry), (⟨default, 200, false⟩ : InputEntry)]
    (1/20) 100 0 exMap (by
      intro e he
      rcases List.mem_cons.mp he with h | h
      · subst h; exact Or.inl rfl
      · rcases List.mem_cons.mp h with h' | h'
        · subst h'; exact Or.inr (by norm_num)
        · exact absurd h' (List.not_mem_nil _))).1

/-! ### Coin pickup and coin-to-immunity conversion (C3) -/

/-- A coin pickup strictly below the conversion threshold just increments
the counter. -/
theorem coinCheck_player_incr {p : Player} {c : Coin}
    (hcol : c.collected = false)
    (hd : sqDistLt (p.x - c.x) (p.y - c.y) 25 = true)
    (hlt : p.coinsCollected + 1 < COINS_FOR_IMMUNITY) :
    coinCheck p c
      = ({ p with coinsCollected := p.coinsCollected + 1 },
         { c with collected := true }) := by
  have hlt5 : p.coinsCollected + 1 < 5 := hlt
  unfold coinCheck coinConvert
  rw [if_neg (by simp [hcol]), if_pos hd, if_neg (by
    show ¬ COINS_FOR_IMMUNITY ≤ p.coinsCollected + 1
    show ¬ 5 ≤ p.coinsCollected + 1
    omega)]

/-- A coin pickup that reaches the threshold with inventory below the cap
converts: inventory gains one, counter resets to 0. -/
theorem coinCheck_player_convert {p : Player} {c : Coin}
    (hcol : c.collected = false)
    (hd : sqDistLt (p.x - c.x) (p.y - c.y) 25 = true)
    (hge : COINS_FOR_IMMUNITY ≤ p.coinsCollected + 1)
    (hinv : p.immunityInventory < MAX_IMMUNITY_INVENTORY) :
    coinCheck p c
      = ({ p with
           coinsCollected := 0,
           immunityInventory := p.immunityInventory + 1 },
         { c with collected := true }) := by
  unfold coinCheck coinConvert
  rw [if_neg (by simp [hcol]), if_pos hd,
    if_pos (show COINS_FOR_IMMUNITY ≤ p.coinsCollected + 1 from hge),
    if_pos (show p.immunityInventory < MAX_IMMUNITY_INVENTORY from hinv)]

/-- A coin pickup that reaches the threshold at the inventory cap holds
the counter at 4 instead of wrapping. -/
theorem coinCheck_player_cap {p : Player} {c : Coin}
    (hcol : c.collected = false)
    (hd : sqDistLt (p.x - c.x) (p.y - c.y) 25 = true)
    (hge : COINS_FOR_IMMUNITY ≤ p.coinsCollected + 1)
    (hinv : MAX_IMMUNITY_INVENTORY ≤ p.immunityInventory) :
    coinCheck p c
      = ({ p with coinsCollected := COINS_FOR_IMMUNITY - 1 },
         { c with collected := true }) := by
  have hinv3 : (3:Nat) ≤ p.immunityInventory := hinv
  unfold coinCheck coinConvert
  rw [if_neg (by simp [hcol]), if_pos hd,
    if_pos (show COINS_FOR_IMMUNITY ≤ p.coinsCollected + 1 from hge),
    if_neg (by
      show ¬ p.immunityInventory < MAX_IMMUNITY_INVENTORY
      show ¬ p.immunityInventory < 3
      omega)]

/-- An in-range uncollected coin is always marked collected. -/
theorem coinCheck_snd {p : Player} {c : Coin}
    (hcol : c.collected = false)
    (hd : sqDistLt (p.x - c.x) (p.y - c.y) 25 = true) :
    (coinCheck p c).2 = { c with collected := true } := by
  unfold coinCheck
  rw [if_neg (by simp [hcol]), if_pos hd]

/-- The player component of the coin loop folds independently of the
rebuilt coin list. -/
theorem coinsPass_player (cs : List Coin) :
    ∀ (p : Player) (acc : List Coin),
      (cs.foldl (fun a c => ((coinCheck a.1 c).1, a.2 ++ [(coinCheck a.1 c).2])) (p, acc)).1
        = cs.foldl (fun q c => (coinCheck q c).1) p := by
  induction cs with
  | nil => intro p acc; rfl
  | cons c cs ih => intro p acc; exact ih _ _

theorem coinsPass_fst (cs : List Coin) (p : Player) :
    (coinsPass p cs).1 = cs.foldl (fun q c => (coinCheck q c).1) p := by
  unfold coinsPass
  exact coinsPass_player cs p []

/-- Folding in-range uncollected coins while staying strictly below the
threshold accumulates the counter and touches nothing else. -/
theorem coinsFold_low : ∀ (cs : List Coin) (p : Player),
    (∀ c ∈ cs, c.collected = false ∧ sqDistLt (p.x - c.x) (p.y - c.y) 25 = true) →
    p.coinsCollected + cs.length < COINS_FOR_IMMUNITY →
    cs.foldl (fun q c => (coinCheck q c).1) p
      = { p with coinsCollected := p.coinsCollected + cs.length } := by
  intro cs
  induction cs with
  | nil =>
    intro p hall hlen
    simp only [List.foldl_nil, List.length_nil, Nat.add_zero]
  | cons c cs ih =>
    intro p hall hlen
    have hc := hall c (List.mem_cons_self c cs)
    have hlen' : p.coinsCollected + (cs.length + 1) < 5 := by
      have h5 : p.coinsCollected + (c :: cs).length < 5 := hlen
      simpa [List.length_cons] using h5
    simp only [List.foldl_cons]
    rw [coinCheck_player_incr hc.1 hc.2 (by
      show p.coinsCollected + 1 < 5
      omega)]
    rw [ih { p with coinsCollected := p.coinsCollected + 1 }
      (fun c' hc' => ⟨(hall c' (List.mem_cons_of_mem c hc')).1,
        (hall c' (List.mem_cons_of_mem c hc')).2⟩)
      (by
        show p.coinsCollected + 1 + cs.length < 5
        omega)]
    show ({ p with coinsCollected := p.coinsCollected + 1 + cs.length } : Player)
        = { p with coinsCollected := p.coinsCollected + (c :: cs).length }
    have h : p.coinsCollected + 1 + cs.length = p.coinsCollected + (c :: cs).length := by
      simp only [List.length_cons]
      omega
    rw [h]

/-- C3: in the collision pass, an uncollected coin within 25 units is
collected and increments the player's counter; whenever the counter
reaches 5, the inventory gains one charge and the counter resets to 0 if
the inventory is below the cap of 3, and otherwise the counter is set to
4 (one below the threshold) instead of wrapping; and starting from
counter 0 and inventory 0, a pass over exactly 5 in-range coins ends with
counter 0 and inventory 1. -/
theorem coin_collection_conversion (p : Player) (c : Coin) (cs : List Coin) :
    (c.collected = false → sqDistLt (p.x - c.x) (p.y - c.y) 25 = true →
      (coinCheck p c).2.collected = true ∧
      (p.coinsCollected + 1 < COINS_FOR_IMMUNITY →
        (coinCheck p c).1.coinsCollected = p.coinsCollected + 1 ∧
        (coinCheck p c).1.immunityInventory = p.immunityInventory) ∧
      (COINS_FOR_IMMUNITY ≤ p.coinsCollected + 1 →
        (p.immunityInventory < MAX_IMMUNITY_INVENTORY →
          (coinCheck p c).1.immunityInventory = p.immunityInventory + 1 ∧
          (coinCheck p c).1.coinsCollected = 0) ∧
        (MAX_IMMUNITY_INVENTORY ≤ p.immunityInventory →
          (coinCheck p c).1.coinsCollected = COINS_FOR_IMMUNITY - 1 ∧
          (coinCheck p c).1.immunityInventory = p.immunityInventory))) ∧
    (p.coinsCollected = 0 → p.immunityInventory = 0 → cs.length = 5 →
      (∀ c' ∈ cs, c'.collected = false ∧ sqDistLt (p.x - c'.x) (p.y - c'.y) 25 = true) →
      (coinsPass p cs).1.coinsCollected = 0 ∧
      (coinsPass p cs).1.immunityInventory = 1) := by
  constructor
  · intro hcol hd
    refine ⟨by rw [coinCheck_snd hcol hd], ?_, ?_⟩
    · intro hlt
      rw [coinCheck_player_incr hcol hd hlt]
      exact ⟨rfl, rfl⟩
    · intro hge
      constructor
      · intro hinv
        rw [coinCheck_player_convert hcol hd hge hinv]
        exact ⟨rfl, rfl⟩
      · intro hinv
        rw [coinCheck_player_cap hcol hd hge hinv]
        exact ⟨rfl, rfl⟩
  · intro h0 hi0 hlen hall
    rcases cs with _ | ⟨c1, cs⟩
    · simp at hlen
    rcases cs with _ | ⟨c2, cs⟩
    · simp at hlen
    rcases cs with _ | ⟨c3, cs⟩
    · simp at hlen
    rcases cs with _ | ⟨c4, cs⟩
    · simp at hlen
    rcases cs with _ | ⟨c5, cs⟩
    · simp at hlen
    rcases cs with _ | ⟨c6, cs⟩
    swap
    · simp at hlen
    rw [coinsPass_fst]
    rw [show ([c1, c2, c3, c4, c5] : List Coin) = [c1, c2, c3, c4] ++ [c5] from rfl,
      List.foldl_append]
    rw [coinsFold_low [c1, c2, c3, c4] p
      (fun c' hc' => hall c'
        (List.Sublist.subset (List.sublist_append_left [c1, c2, c3, c4] [c5]) hc'))
      (by
        show p.coinsCollected + 4 < 5
        omega)]
    have h5 := hall c5 (by
      right; right; right; right
      exact List.mem_cons_self c5 [])
    simp only [List.foldl_cons, List.foldl_nil]
    rw [coinCheck_player_convert
      (p := { p with coinsCollected := p.coinsCollected + [c1, c2, c3, c4].length })
      h5.1 h5.2
      (by
        show (5:Nat) ≤ p.coinsCollected + 4 + 1
        omega)
      (by
        show p.immunityInventory < 3
        omega)]
    refine ⟨rfl, ?_⟩
    show p.immunityInventory + 1 = 1
    omega

/-- Witness for C3 at a concrete player and five concrete coins. -/
theorem coin_collection_conversion_witness :
    (coinsPass exPlayer
      [(⟨"c1", 32, 32, false, 0⟩ : Coin), (⟨"c2", 32, 32, false, 0⟩ : Coin),
       (⟨"c3", 32, 32, false, 0⟩ : Coin), (⟨"c4", 32, 32, false, 0⟩ : Coin),
       (⟨"c5", 32, 32, false, 0⟩ : Coin)]).1.coinsCollected = 0 ∧
    (coinsPass exPlayer
      [(⟨"c1", 32, 32, false, 0⟩ : Coin), (⟨"c2", 32, 32, false, 0⟩ : Coin),
       (⟨"c3", 32, 32, false, 0⟩ : Coin), (⟨"c4", 32, 32, false, 0⟩ : Coin),
       (⟨"c5", 32, 32, false, 0⟩ : Coin)]).1.immunityInventory = 1 :=
  (coin_collection_conversion exPlayer (⟨"c1", 32, 32, false, 0⟩ : Coin)
    [(⟨"c1", 32, 32, false, 0⟩ : Coin), (⟨"c2", 32, 32, false, 0⟩ : Coin),
     (⟨"c3", 32, 32, false, 0⟩ : Coin), (⟨"c4", 32, 32, false, 0⟩ : Coin),
     (⟨"c5", 32, 32, false, 0⟩ : Coin)]).2 rfl rfl rfl
    (by
      simp only [List.forall_mem_cons, List.forall_mem_nil, sqDistLt, exPlayer,
        decide_eq_true_eq]
      norm_num)

/-! ### Lava death and boats (C8) -/

/-- C8 (amended): for a player whose tile is in range and lava — if some
boat overlaps the player, the lava check fires nothing and the pass is
exactly the remaining checks (which may themselves signal a death, e.g.
enemy contact); if no boat overlaps, the pass is exactly one
`player_death` event with the player, every world list and the oracle
cursor untouched — all remaining checks are skipped. -/
theorem lava_death_rule (gs : GameState) (p : Player) (wall : ℚ)
    (o : Nat → ℚ) (k : Nat)
    (hin : 0 ≤ ⌊p.y / 64⌋ ∧ ⌊p.y / 64⌋ < 50 ∧ 0 ≤ ⌊p.x / 64⌋ ∧ ⌊p.x / 64⌋ < 50)
    (htile : getTile gs.map.tiles (⌊p.y / 64⌋).toNat (⌊p.x / 64⌋).toNat = 4) :
    (onBoat p gs.boats = true →
      checkCollisionsPlayer gs p wall o k = collisionChecksAfterLava gs p wall o k) ∧
    (onBoat p gs.boats = false →
      checkCollisionsPlayer gs p wall o k = lavaDeathResult gs p k) := by
  constructor
  · intro hb
    unfold checkCollisionsPlayer
    rw [if_neg]
    rintro ⟨-, -, hnb⟩
    rw [hb] at hnb
    exact Bool.noConfusion hnb
  · intro hb
    unfold checkCollisionsPlayer
    rw [if_pos ⟨hin, htile, hb⟩]

/-- Witness for C8 (amended), no-boat side: the example player on the
lava-only map with no boats receives exactly the lava death result. -/
theorem lava_death_rule_witness :
    checkCollisionsPlayer exGsNoBoat exPlayer 0 (fun _ => 0) 0
      = lavaDeathResult exGsNoBoat exPlayer 0 :=
  (lava_death_rule exGsNoBoat exPlayer 0 (fun _ => 0) 0
    (by
      simp only [exPlayer]
      norm_num)
    (by
      have hf : (⌊((32:ℚ) / 64)⌋ : Int) = 0 := by norm_num
      simp only [exPlayer, exGsNoBoat, exGs, exLavaMap, hf, Int.toNat_zero]
      rfl)).2 rfl

/-- C8 as literally stated is false: with a boat overlapping the player on
a lava tile, the pass still signals a `player_death` event for that player
when an enemy is in contact (the enemy check runs after the lava check and
emits the same event). -/
theorem lava_boat_death_counterexample :
    onBoat exPlayer exGs.boats = true ∧
    getTile exGs.map.tiles (⌊exPlayer.y / 64⌋).toNat (⌊exPlayer.x / 64⌋).toNat = 4 ∧
    (checkCollisionsPlayer exGs exPlayer 0 (fun _ => 0) 0).events
      = [("player_death", "p1")] := by
  have hf : (⌊((32:ℚ) / 64)⌋ : Int) = 0 := by norm_num
  have hboat : onBoat exPlayer exGs.boats = true := by
    simp only [onBoat, exGs, exBoat, exPlayer, List.any_cons, List.any_nil,
      Bool.or_false, Bool.and_eq_true, decide_eq_true_eq]
    norm_num
  refine ⟨hboat, ?_, ?_⟩
  · simp only [exPlayer, exGs, exLavaMap, hf, Int.toNat_zero]
    rfl
  · have hsq : sqDistLt (exPlayer.x - exEnemy.x) (exPlayer.y - exEnemy.y)
        (exPlayer.width / 2 + exEnemy.width / 2) = true := by
      simp only [sqDistLt, exPlayer, exEnemy, decide_eq_true_eq]
      norm_num
    have henemies : enemiesPass exGs.map 0 (fun _ => 0) exPlayer exGs.enemies 0
        = ([exEnemy], [("player_death", exPlayer.id)], 0) := by
      show enemiesPass exGs.map 0 (fun _ => 0) exPlayer [exEnemy] 0
        = ([exEnemy], [("player_death", exPlayer.id)], 0)
      unfold enemiesPass
      simp only [List.foldl_cons, List.foldl_nil]
      rw [hsq]
      simp only [if_true]
      rw [if_pos (show exPlayer.immunityActive = false from rfl)]
      simp
    have hnotc : ¬ ((0 ≤ ⌊exPlayer.y / 64⌋ ∧ ⌊exPlayer.y / 64⌋ < 50 ∧
          0 ≤ ⌊exPlayer.x / 64⌋ ∧ ⌊exPlayer.x / 64⌋ < 50) ∧
        getTile exGs.map.tiles (⌊exPlayer.y / 64⌋).toNat (⌊exPlayer.x / 64⌋).toNat = 4 ∧
        onBoat exPlayer exGs.boats = false) := by
      rintro ⟨-, -, hnb⟩
      rw [hboat] at hnb
      exact Bool.noConfusion hnb
    unfold checkCollisionsPlayer
    rw [if_neg hnotc]
    unfold collisionChecksAfterLava
    simp only []
    rw [henemies]
    rfl

/-! ### The coin spawning schedule (C9) -/

/-- One run of the spawn-coin loop either leaves the state unchanged or
appends exactly one uncollected coin. -/
theorem spawnCoinLoop_cases (wall : ℚ) (o : Nat → ℚ) :
    ∀ (fuel : Nat) (gs : GameState) (k : Nat),
      (spawnCoinLoop wall o fuel gs k).1 = gs ∨
      ∃ c : Coin, c.collected = false ∧
        (spawnCoinLoop wall o fuel gs k).1 = { gs with coins := gs.coins ++ [c] } := by
  intro fuel
  induction fuel with
  | zero => intro gs k; exact Or.inl rfl
  | succ n ih =>
    intro gs k
    unfold spawnCoinLoop
    split
    · split
      · exact ih gs (k + 2)
      · exact Or.inr ⟨_, rfl, rfl⟩
    · exact ih gs (k + 2)

theorem uncollected_append_one (coins : List Coin) (c : Coin) :
    uncollectedCoins (coins ++ [c]) ≤ uncollectedCoins coins + 1 := by
  simp only [uncollectedCoins, List.filter_append, List.length_append]
  have h : (List.filter (fun c => !c.collected) [c]).length ≤ 1 := by
    simp only [List.filter]
    split <;> simp
  omega

/-- `spawnCoin` is skipped at the cap and otherwise preserves
`uncollectedCoins ≤ 40`. -/
theorem spawnCoin_cap (wall : ℚ) (o : Nat → ℚ) (gs : GameState) (k : Nat) :
    (40 ≤ uncollectedCoins gs.coins → spawnCoin wall o gs k = (gs, k)) ∧
    (uncollectedCoins gs.coins ≤ 40 →
      uncollectedCoins (spawnCoin wall o gs k).1.coins ≤ 40) := by
  constructor
  · intro h
    unfold spawnCoin
    rw [if_pos h]
  · intro h
    unfold spawnCoin
    split
    · exact h
    · rename_i hlt
      rcases spawnCoinLoop_cases wall o 100 gs k with h1 | ⟨c, -, h1⟩ <;> rw [h1]
      · exact h
      · have h2 := uncollected_append_one gs.coins c
        show uncollectedCoins (gs.coins ++ [c]) ≤ 40
        omega

/-- `spawnCoin` touches only the coin list: the spawn timers, thresholds
and flags are unchanged. -/
theorem spawnCoin_fields (wall : ℚ) (o : Nat → ℚ) (gs : GameState) (k : Nat) :
    (spawnCoin wall o gs k).1.nextCoinSpawnTime = gs.nextCoinSpawnTime ∧
    (spawnCoin wall o gs k).1.coinSpawnTimer = gs.coinSpawnTimer ∧
    (spawnCoin wall o gs k).1.coinsInitialized = gs.coinsInitialized := by
  unfold spawnCoin
  split
  · exact ⟨rfl, rfl, rfl⟩
  · rcases spawnCoinLoop_cases wall o 100 gs k with h1 | ⟨c, -, h1⟩ <;> rw [h1]
    · exact ⟨rfl, rfl, rfl⟩
    · exact ⟨rfl, rfl, rfl⟩

theorem spawnCoinN_fields (wall : ℚ) (o : Nat → ℚ) :
    ∀ (n : Nat) (gs : GameState) (k : Nat),
      (spawnCoinN wall o n gs k).1.nextCoinSpawnTime = gs.nextCoinSpawnTime ∧
      (spawnCoinN wall o n gs k).1.coinSpawnTimer = gs.coinSpawnTimer := by
  intro n
  induction n with
  | zero => intro gs k; exact ⟨rfl, rfl⟩
  | succ n ih =>
    intro gs k
    have h1 := spawnCoin_fields wall o gs k
    have h2 := ih (spawnCoin wall o gs k).1 (spawnCoin wall o gs k).2
    unfold spawnCoinN
    exact ⟨h2.1.trans h1.1, h2.2.trans h1.2.1⟩

theorem spawnCoinN_cap (wall : ℚ) (o : Nat → ℚ) :
    ∀ (n : Nat) (gs : GameState) (k : Nat),
      uncollectedCoins gs.coins ≤ 40 →
      uncollectedCoins (spawnCoinN wall o n gs k).1.coins ≤ 40 := by
  intro n
  induction n with
  | zero => intro gs k h; exact h
  | succ n ih =>
    intro gs k h
    unfold spawnCoinN
    exact ih _ _ ((spawnCoin_cap wall o gs k).2 h)

attribute [irreducible] spawnCoinLoop spawnCoin spawnCoinN

/-- C9 (amended): the first spawn interval, drawn at room initialization,
lies in [10, 15) — not 3–7; on the first pass the coin list is exactly
that of 20 spawn attempts; when the timer reaches the interval, the next
interval is redrawn as `3 + r·4 ∈ [3, 7)` and the wave makes
`3 + ⌊r·3⌋ ∈ {3, 4, 5}` spawn attempts; a spawn attempt is skipped
outright at 40 uncollected coins and never pushes the count past 40. -/
theorem coin_spawn_schedule (r dt wall : ℚ) (gs : GameState) (o : Nat → ℚ)
    (k : Nat) :
    (0 ≤ r → r < 1 →
      10 ≤ initialNextCoinSpawnTime r ∧ initialNextCoinSpawnTime r < 15) ∧
    (gs.coinsInitialized = false → gs.coinSpawnTimer + dt < gs.nextCoinSpawnTime →
      (handleSpawningCoins gs dt wall o k).1.coins
        = (spawnCoinN wall o 20 { gs with coinsInitialized := true } k).1.coins) ∧
    (gs.coinsInitialized = true → gs.nextCoinSpawnTime ≤ gs.coinSpawnTimer + dt →
      handleSpawningCoins gs dt wall o k
        = spawnCoinN wall o (3 + ⌊o (k + 1) * 3⌋).toNat
            { gs with coinSpawnTimer := 0, nextCoinSpawnTime := 3 + o k * 4 }
            (k + 2) ∧
      (0 ≤ o k → o k < 1 → 3 ≤ 3 + o k * 4 ∧ 3 + o k * 4 < 7) ∧
      (0 ≤ o (k + 1) → o (k + 1) < 1 →
        3 ≤ (3 + ⌊o (k + 1) * 3⌋).toNat ∧ (3 + ⌊o (k + 1) * 3⌋).toNat ≤ 5)) ∧
    (40 ≤ uncollectedCoins gs.coins → spawnCoin wall o gs k = (gs, k)) ∧
    (uncollectedCoins gs.coins ≤ 40 →
      uncollectedCoins (handleSpawningCoins gs dt wall o k).1.coins ≤ 40) := by
  refine ⟨?_, ?_, ?_, (spawnCoin_cap wall o gs k).1, ?_⟩
  · intro h0 h1
    unfold initialNextCoinSpawnTime
    constructor <;> nlinarith
  · intro hini htrig
    unfold handleSpawningCoins
    simp only []
    split
    · split
      · rename_i hc
        exfalso
        have hf := spawnCoinN_fields wall o 20 { gs with coinsInitialized := true } k
        have hc' : (spawnCoinN wall o 20 { gs with coinsInitialized := true } k).1.nextCoinSpawnTime
            ≤ (spawnCoinN wall o 20 { gs with coinsInitialized := true } k).1.coinSpawnTimer + dt :=
          hc
        rw [hf.1, hf.2] at hc'
        exact absurd (show gs.nextCoinSpawnTime ≤ gs.coinSpawnTimer + dt from hc')
          (not_le.mpr htrig)
      · rfl
    · rename_i hni
      exact absurd hini hni
  · intro hini htrig
    refine ⟨?_, ?_, ?_⟩
    · unfold handleSpawningCoins
      simp only []
      have hX : ¬ gs.coinsInitialized = false := by
        rw [hini]
        exact fun h => Bool.noConfusion h
      rw [if_neg hX]
      split
      · rfl
      · rename_i hc
        exact absurd htrig hc
    · intro h0 h1
      constructor <;> nlinarith
    · intro h0 h1
      have hge : (0:Int) ≤ ⌊o (k + 1) * 3⌋ := Int.floor_nonneg.mpr (by nlinarith)
      have hlt : ⌊o (k + 1) * 3⌋ < 3 := by
        rw [Int.floor_lt]
        push_cast
        nlinarith
      omega
  · intro h40
    unfold handleSpawningCoins
    simp only []
    split
    · split
      · apply spawnCoinN_cap
        exact spawnCoinN_cap wall o 20 { gs with coinsInitialized := true } k h40
      · exact spawnCoinN_cap wall o 20 { gs with coinsInitialized := true } k h40
    · split
      · apply spawnCoinN_cap
        exact h40
      · exact h40

/-- Witness for C9 (amended) at concrete inputs: a triggered wave redraws
the interval to `3 + (1/2)·4 = 5 ∈ [3, 7)` and makes
`3 + ⌊(1/2)·3⌋ = 4` spawn attempts. -/
theorem coin_spawn_schedule_witness :
    handleSpawningCoins { exGs with coinSpawnTimer := 12 } (1/20) 0 (fun _ => 1/2) 0
      = spawnCoinN 0 (fun _ => 1/2) (3 + ⌊(1/2 : ℚ) * 3⌋).toNat
          { { exGs with coinSpawnTimer := 12 } with
            coinSpawnTimer := 0,
            nextCoinSpawnTime := 3 + (1/2 : ℚ) * 4 } 2 ∧
    3 ≤ 3 + (1/2 : ℚ) * 4 ∧ 3 + (1/2 : ℚ) * 4 < 7 ∧
    3 ≤ (3 + ⌊(1/2 : ℚ) * 3⌋).toNat ∧ (3 + ⌊(1/2 : ℚ) * 3⌋).toNat ≤ 5 := by
  have h := (coin_spawn_schedule (1/2) (1/20) 0 { exGs with coinSpawnTimer := 12 }
    (fun _ => 1/2) 0).2.2.1 rfl (by
      show (12 : ℚ) ≤ 12 + 1/20
      norm_num)
  refine ⟨h.1, (h.2.1 (by norm_num) (by norm_num)).1, (h.2.1 (by norm_num) (by norm_num)).2,
    (h.2.2 (by norm_num) (by norm_num)).1, (h.2.2 (by norm_num) (by norm_num)).2⟩

/-- C9 as literally stated is false: the first spawn interval is set by
`initializeRoom` to `10 + r·5`, which lies in [10, 15) and never in the
claimed 3–7 s range; concretely, with the draw `1/2` the interval is
12.5 s, and a tick at 10 elapsed seconds — more than any 3–7 s interval —
still spawns nothing. -/
theorem coin_first_interval_counterexample :
    initialNextCoinSpawnTime (1/2) = 25/2 ∧
    ¬ (initialNextCoinSpawnTime (1/2) ≤ 7) ∧
    (7 : ℚ) ≤ exGsCoins.coinSpawnTimer ∧
    (handleSpawningCoins exGsCoins (1/20) 0 (fun _ => 0) 0).1.coins = [] := by
  refine ⟨by norm_num [initialNextCoinSpawnTime], by norm_num [initialNextCoinSpawnTime],
    by show (7:ℚ) ≤ 10; norm_num, ?_⟩
  unfold handleSpawningCoins
  simp only []
  rw [if_neg (show ¬ exGsCoins.coinsInitialized = false by
    rw [show exGsCoins.coinsInitialized = true from rfl]
    exact fun h => Bool.noConfusion h)]
  split
  · rename_i hc
    exfalso
    have hc' : initialNextCoinSpawnTime (1/2) ≤ (10 : ℚ) + 1/20 := hc
    unfold initialNextCoinSpawnTime at hc'
    norm_num at hc'
  · rfl

/-! ### The tick scheduler and per-room fault isolation (C1) -/

/-- C1 is right about the intended design but the code violates it: the
`forEach` in `tick()` has no per-room isolation, so when `updateRoom`
throws on the first playing room (`AAAA`), the pass aborts and the second
playing room (`BBBB`) is not updated in that tick — the updated-rooms list
comes back empty with the fault. -/
theorem tick_fault_aborts_pass :
    roomA.status = "playing" ∧
    roomB.status = "playing" ∧
    updFault roomA = Except.error "TypeError" ∧
    tickUpdatedRooms updFault [roomA, roomB] = ([], some "TypeError") ∧
    ¬ ("BBBB" ∈ (tickUpdatedRooms updFault [roomA, roomB]).1) := by
  refine ⟨rfl, rfl, rfl, by decide, by decide⟩
